import Mathlib

/-!
Shallow embedding of the Accurate Cyber Defense Information Gathering Tool
(`Accurate-Cyber-Defense-Information-Gathering-Tool.py`): the service table,
banner classifier, port scanner, snapshot differ and monitoring state
transitions, together with theorems settling the specification claims.
-/

namespace ACD

/-- Substring test helper: does the character list start with the pattern?
Models the inner step of the Python `in` operator on strings. -/
def beginsWith : List Char → List Char → Bool
  | [], _ => true
  | _ :: _, [] => false
  | a :: ps, b :: ls => a == b && beginsWith ps ls

/-- Does `p` occur as a contiguous sublist of the second list?
Models the Python `in` operator on strings. -/
def hasSubList (p : List Char) : List Char → Bool
  | [] => beginsWith p []
  | c :: ls => beginsWith p (c :: ls) || hasSubList p ls

/-- `strContains s pat` models the Python expression `pat in s` on strings. -/
def strContains (s pat : String) : Bool :=
  hasSubList pat.data s.data

/-- Models Python `str.lower()` (ASCII case folding suffices for the
keywords the classifier matches). -/
def strLower (s : String) : String :=
  ⟨s.data.map Char.toLower⟩

/-- Association-list lookup, modelling Python `dict.get` / `dict[...]` /
`key in dict` on dictionaries in insertion order. -/
def alookup {κ α : Type} [DecidableEq κ] : List (κ × α) → κ → Option α
  | [], _ => none
  | e :: t, k => if e.1 = k then some e.2 else alookup t k

/-- The keys of an association list, in order (Python `dict.keys()`). -/
def keys {κ α : Type} (l : List (κ × α)) : List κ :=
  l.map Prod.fst

/-- The `COMMON_SERVICES` port-to-service table from the source, in source
order. -/
def COMMON_SERVICES : List (Nat × String) :=
  [(7, "echo"), (20, "ftp-data"), (21, "ftp"), (22, "ssh"), (23, "telnet"),
   (25, "smtp"), (43, "whois"), (53, "dns"), (67, "dhcp"), (68, "dhcp"),
   (69, "tftp"), (80, "http"), (110, "pop3"), (115, "sftp"), (119, "nntp"),
   (123, "ntp"), (137, "netbios-ns"), (138, "netbios-dgm"),
   (139, "netbios-ssn"), (143, "imap"), (161, "snmp"), (179, "bgp"),
   (194, "irc"), (389, "ldap"), (443, "https"), (445, "smb"),
   (514, "syslog"), (515, "printer"), (587, "smtps"), (631, "ipp"),
   (636, "ldaps"), (993, "imaps"), (995, "pop3s"), (1080, "socks"),
   (1194, "openvpn"), (1433, "mssql"), (1723, "pptp"), (1900, "upnp"),
   (2082, "cpanel"), (2083, "cpanel-ssl"), (2086, "whm"), (2087, "whm-ssl"),
   (2095, "webmail"), (2096, "webmail-ssl"), (2181, "zookeeper"),
   (2375, "docker"), (2376, "docker-ssl"), (2483, "oracle"),
   (2484, "oracle-ssl"), (3000, "nodejs"), (3306, "mysql"), (3389, "rdp"),
   (5432, "postgresql"), (5500, "vnc"), (5601, "kibana"), (5672, "amqp"),
   (5900, "vnc"), (5938, "teamviewer"), (6379, "redis"),
   (6443, "kubernetes"), (6666, "irc"), (6667, "irc"), (8000, "http-alt"),
   (8008, "http-alt"), (8080, "http-proxy"), (8081, "http-alt"),
   (8443, "https-alt"), (8888, "http-alt"), (9000, "php-fpm"),
   (9042, "cassandra"), (9092, "kafka"), (9200, "elasticsearch"),
   (9300, "elasticsearch"), (11211, "memcached"), (27017, "mongodb"),
   (27018, "mongodb"), (27019, "mongodb"), (28017, "mongodb"),
   (50000, "db2")]

/-- `CyberSecurityTool.get_service_name`: base label from the table
(`"unknown"` when absent), refined by ordered case-insensitive banner
keyword rules when the banner is non-empty. -/
def get_service_name (port : Nat) (banner : String) : String :=
  let service := (alookup COMMON_SERVICES port).getD "unknown"
  if banner = "" then service
  else
    let banner_lower := strLower banner
    if strContains banner_lower "ssh" then "ssh"
    else if strContains banner_lower "http" then
      (if port ≠ 443 then "http" else "https")
    else if strContains banner_lower "smtp" then "smtp"
    else if strContains banner_lower "ftp" then "ftp"
    else if strContains banner_lower "mysql" then "mysql"
    else service

example : get_service_name 443 "" = "https" := by decide
example : get_service_name 443 "OpenSSH banner" = "ssh" := by decide
example : get_service_name 80 "Apache HTTP Server" = "http" := by decide
example : get_service_name 12345 "" = "unknown" := by decide

/-- The per-port record stored in a scan snapshot (`open_ports[port]`):
service label, captured banner, and capture timestamp. -/
structure PortInfo where
  service : String
  banner : String
  timestamp : String
deriving DecidableEq, Repr

/-- A scan snapshot: the `open_ports` dictionary, as an association list in
insertion order (Python dict keys are unique and iterate in insertion
order). -/
abbrev Snapshot := List (Nat × PortInfo)

/-- A change event produced by `detect_changes`: the three dictionary shapes
appended to `changes`, each carrying its port, service label(s), event
timestamp and rendered message. -/
inductive Change where
  | port_opened (port : Nat) (service : String) (timestamp : String)
      (message : String)
  | port_closed (port : Nat) (service : String) (timestamp : String)
      (message : String)
  | service_change (port : Nat) (old_service new_service : String)
      (timestamp : String) (message : String)
deriving DecidableEq, Repr

/-- The port a change event refers to (`change["port"]`). -/
def Change.port : Change → Nat
  | .port_opened p _ _ _ => p
  | .port_closed p _ _ _ => p
  | .service_change p _ _ _ _ => p

/-- Rank of the kind of a change event in the order `detect_changes` emits
them: opened events first, then closed, then service changes. -/
def kindRank : Change → Nat
  | .port_opened _ _ _ _ => 0
  | .port_closed _ _ _ _ => 1
  | .service_change _ _ _ _ _ => 2

/-- Boolean test: is this change an opened event for port `p`? -/
def isOpenedAt (p : Nat) : Change → Bool
  | .port_opened q _ _ _ => decide (q = p)
  | _ => false

/-- Boolean test: is this change a closed event for port `p`? -/
def isClosedAt (p : Nat) : Change → Bool
  | .port_closed q _ _ _ => decide (q = p)
  | _ => false

/-- Boolean test: is this change a service-change event for port `p`? -/
def isServiceChangeAt (p : Nat) : Change → Bool
  | .service_change q _ _ _ _ => decide (q = p)
  | _ => false

/-- `CyberSecurityTool.scan_port`, with the network interaction made
explicit: `connectRes` models `connect_ex` (`.error` when the socket call
itself raises — unreachable host, DNS failure — and `.ok code` for its
return code, `0` meaning connected), and `bannerRes` models the
send/receive of the banner (`.error` when it raises). Returns the
`(is_open, banner)` pair. -/
def scan_port (connectRes : Except String Nat)
    (bannerRes : Except String String) : Bool × String :=
  match connectRes with
  | .error _ => (false, "")
  | .ok result =>
    if result = 0 then
      match bannerRes with
      | .ok banner => if banner ≠ "" then (true, banner) else (true, "")
      | .error _ => (true, "")
    else (false, "")

/-- Python dict assignment `d[port] = v`: replace in place when the key is
present, append otherwise. -/
def dictInsert (s : Snapshot) (port : Nat) (v : PortInfo) : Snapshot :=
  if (alookup s port).isSome then
    s.map (fun e => if e.1 = port then (port, v) else e)
  else s ++ [(port, v)]

/-- The worker loop of `CyberSecurityTool.scan_ports`: the probe outcome
of each port (`future.result()`) is given by `outcome`, `.error` when the
future raised (caught and logged, the scan continues), `.ok (is_open,
banner)` otherwise; open ports are recorded in the `open_ports`
dictionary. -/
def scan_run_aux (outcome : Nat → Except String (Bool × String))
    (now : String) : List Nat → Snapshot → Snapshot
  | [], open_ports => open_ports
  | port :: rest, open_ports =>
    match outcome port with
    | .error _ => scan_run_aux outcome now rest open_ports
    | .ok res =>
      if res.1 then
        scan_run_aux outcome now rest
          (dictInsert open_ports port
            ⟨get_service_name port res.2, res.2, now⟩)
      else scan_run_aux outcome now rest open_ports

/-- The port list `CyberSecurityTool.scan_ports` iterates over: the given
list when one is passed, otherwise
`list(COMMON_SERVICES.keys()) + list(range(1, 1001))`. -/
def scan_ports_portList (ports : Option (List Nat)) : List Nat :=
  match ports with
  | some l => l
  | none => keys COMMON_SERVICES ++ List.range' 1 1000

/-- `CyberSecurityTool.scan_ports`: probe every port of the port list and
collect the open ones into a snapshot. -/
def scan_ports (outcome : Nat → Except String (Bool × String))
    (now : String) (ports : Option (List Nat)) : Snapshot :=
  scan_run_aux outcome now (scan_ports_portList ports) []

/-- First loop of `CyberSecurityTool.detect_changes`: ports present in the
new scan and absent from the old one. -/
def openedChanges (old_scan new_scan : Snapshot) (ip now : String) :
    List Change :=
  new_scan.filterMap (fun e =>
    if (alookup old_scan e.1).isNone then
      some (.port_opened e.1 e.2.service now
        ("🚨 NEW PORT OPENED on " ++ ip ++ ":" ++ toString e.1 ++ " (" ++
          e.2.service ++ ")"))
    else none)

/-- Second loop of `CyberSecurityTool.detect_changes`: ports present in the
old scan and absent from the new one. -/
def closedChanges (old_scan new_scan : Snapshot) (ip now : String) :
    List Change :=
  old_scan.filterMap (fun e =>
    if (alookup new_scan e.1).isNone then
      some (.port_closed e.1 e.2.service now
        ("🚨 PORT CLOSED on " ++ ip ++ ":" ++ toString e.1 ++ " (" ++
          e.2.service ++ ")"))
    else none)

/-- Third loop of `CyberSecurityTool.detect_changes`: ports present in both
scans whose service label changed. -/
def serviceChanges (old_scan new_scan : Snapshot) (ip now : String) :
    List Change :=
  new_scan.filterMap (fun e =>
    match alookup old_scan e.1 with
    | some old_info =>
      if e.2.service ≠ old_info.service then
        some (.service_change e.1 old_info.service e.2.service now
          ("🔄 SERVICE CHANGE on " ++ ip ++ ":" ++ toString e.1 ++ " (" ++
            old_info.service ++ " → " ++ e.2.service ++ ")"))
      else none
    | none => none)

/-- `CyberSecurityTool.detect_changes`: the three loops run in source
order, appending to one `changes` list. -/
def detect_changes (old_scan new_scan : Snapshot) (ip now : String) :
    List Change :=
  openedChanges old_scan new_scan ip now ++
    closedChanges old_scan new_scan ip now ++
      serviceChanges old_scan new_scan ip now

/-- The per-target record `self.monitored_ips[ip]`: last snapshot, change
log and monitoring start time. -/
structure TargetInfo where
  last_scan : Snapshot
  changes : List Change
  start_time : String
deriving DecidableEq, Repr

/-- The per-target body of `CyberSecurityTool.monitoring_loop`, given the
freshly produced scan `current_scan`: compute the changes against
`last_scan`; when the change list is non-empty, extend the change log and
replace `last_scan`; otherwise leave the record untouched. -/
def monitor_cycle (st : TargetInfo) (current_scan : Snapshot)
    (ip now : String) : TargetInfo :=
  let changes := detect_changes st.last_scan current_scan ip now
  if changes ≠ [] then
    ⟨current_scan, st.changes ++ changes, st.start_time⟩
  else st

/-- Result of an `addTarget` call (`CyberSecurityTool.start_monitoring`):
either the ip was already monitored, or it was added. -/
inductive AddResult where
  | alreadyMonitored
  | added
deriving DecidableEq, Repr

/-- `CyberSecurityTool.start_monitoring` acting on `self.monitored_ips`:
when `ip` is already a key, log and return with the map unchanged;
otherwise record the target with its seeding scan (`pingOk` is the
best-effort reachability check, logged only). -/
def start_monitoring (monitored_ips : List (String × TargetInfo))
    (ip : String) (pingOk : Bool) (scanResult : Snapshot) (now : String) :
    List (String × TargetInfo) × AddResult :=
  if (alookup monitored_ips ip).isSome then
    (monitored_ips, .alreadyMonitored)
  else
    (monitored_ips ++ [(ip, ⟨scanResult, [], now⟩)], .added)

/-- Modelled from the spec (section 4.2 Classifier): the ordered
case-insensitive keyword rules, each pairing a keyword with the label it
assigns (the `http` rule assigning `"https"` when the port is 443). -/
def keywordRules (port : Nat) : List (String × String) :=
  [("ssh", "ssh"),
   ("http", if port ≠ 443 then "http" else "https"),
   ("smtp", "smtp"),
   ("ftp", "ftp"),
   ("mysql", "mysql")]

/-- Modelled from the spec: the label of the first keyword rule whose
keyword occurs in the (lower-cased) banner, if any. -/
def firstMatch (banner_lower : String) :
    List (String × String) → Option String
  | [] => none
  | r :: rest =>
    if strContains banner_lower r.1 then some r.2
    else firstMatch banner_lower rest

/-- Modelled from the spec (section 4.2 Classifier): base label from the
static table (`"unknown"` for unknown ports); a non-empty banner is
matched case-insensitively against the ordered keyword rules and the
first matching rule overrides the base label. -/
def classify_spec (port : Nat) (banner : String) : String :=
  let base := (alookup COMMON_SERVICES port).getD "unknown"
  if banner = "" then base
  else (firstMatch (strLower banner) (keywordRules port)).getD base

section Lemmas

variable {κ α β : Type} [DecidableEq κ]

/-- A lookup succeeds exactly when the key occurs among the keys. -/
theorem alookup_isSome_iff (l : List (κ × α)) (k : κ) :
    (alookup l k).isSome = true ↔ k ∈ keys l := by
  induction l with
  | nil => simp [alookup, keys]
  | cons e t ih =>
    by_cases h : e.1 = k
    · simp [alookup, keys, h]
    · simp [alookup, keys, h, ih, Ne.symm h]

/-- A failed lookup means the key is absent. -/
theorem alookup_eq_none_iff (l : List (κ × α)) (k : κ) :
    alookup l k = none ↔ k ∉ keys l := by
  rw [← alookup_isSome_iff]
  cases alookup l k <;> simp

/-- A successful lookup returns a value paired with the key in the list. -/
theorem alookup_mem (l : List (κ × α)) (k : κ) (v : α)
    (h : alookup l k = some v) : (k, v) ∈ l := by
  induction l with
  | nil => simp [alookup] at h
  | cons e t ih =>
    by_cases he : e.1 = k
    · simp only [alookup, he, if_pos] at h
      cases h
      have hke : (k, e.2) = e := by
        rw [← he]
      rw [hke]
      exact List.mem_cons_self e t
    · simp only [alookup, he, if_neg, not_false_iff] at h
      exact List.mem_cons_of_mem _ (ih h)

/-- With duplicate-free keys (the dict invariant), looking up the key of any
entry returns the value of that entry. -/
theorem alookup_of_mem_nodup (l : List (κ × α)) (h : (keys l).Nodup)
    (e : κ × α) (he : e ∈ l) : alookup l e.1 = some e.2 := by
  induction l with
  | nil => cases he
  | cons f t ih =>
    simp only [keys, List.map_cons, List.nodup_cons] at h
    rcases List.mem_cons.mp he with rfl | hmem
    · simp [alookup]
    · have hne : f.1 ≠ e.1 := by
        intro hcontra
        exact h.1 (hcontra ▸ List.mem_map_of_mem Prod.fst hmem)
      simpa [alookup, hne] using ih h.2 hmem

/-- Counting through a `filterMap`: an element is counted when the function
keeps it and the predicate holds of the result. -/
theorem countP_filterMap_eq (f : α → Option β) (P : β → Bool) :
    ∀ l : List α,
      (l.filterMap f).countP P
        = l.countP (fun a => ((f a).map P).getD false)
  | [] => rfl
  | a :: t => by
    rw [List.filterMap_cons]
    cases hfa : f a with
    | none =>
      simp [List.countP_cons, hfa, countP_filterMap_eq f P t]
    | some b =>
      simp [List.countP_cons, hfa, countP_filterMap_eq f P t]

/-- In a list none of whose keys is `k`, no entry with key `k` is counted. -/
theorem countP_key_zero (k : κ) (g : κ × α → Bool) (l : List (κ × α))
    (h : k ∉ keys l) :
    l.countP (fun e => decide (e.1 = k) && g e) = 0 := by
  rw [List.countP_eq_zero]
  intro e he
  have : e.1 ≠ k := by
    intro hcontra
    exact h (hcontra ▸ List.mem_map_of_mem Prod.fst he)
  simp [this]

/-- With duplicate-free keys, the number of entries with key `k` satisfying
`g` is decided by the lookup at `k`. -/
theorem countP_key_nodup (k : κ) (g : κ × α → Bool) :
    ∀ l : List (κ × α), (keys l).Nodup →
      l.countP (fun e => decide (e.1 = k) && g e)
        = match alookup l k with
          | some v => if g (k, v) then 1 else 0
          | none => 0 := by
  intro l
  induction l with
  | nil => intro _; simp [alookup]
  | cons e t ih =>
    intro h
    simp only [keys, List.map_cons, List.nodup_cons] at h
    rw [List.countP_cons]
    by_cases he : e.1 = k
    · have hk : k ∉ keys t := by
        rw [← he]
        exact h.1
      rw [countP_key_zero k g t hk]
      have hee : e = (k, e.2) := by
        rw [← he]
      simp only [alookup, he, if_pos]
      by_cases hg : g (k, e.2) = true
      · simp [he, ← hee, hg]
      · simp only [Bool.not_eq_true] at hg
        simp [he, ← hee, hg]
    · simp only [alookup, he, if_neg, not_false_iff]
      have := ih h.2
      simp [he, this]

end Lemmas

section DifferLemmas

/-- Counting opened events at a port: decided by the two lookups. -/
theorem countP_openedChanges (old_scan new_scan : Snapshot)
    (ip now : String) (p : Nat) (hnew : (keys new_scan).Nodup) :
    (openedChanges old_scan new_scan ip now).countP (isOpenedAt p)
      = match alookup new_scan p, alookup old_scan p with
        | some _, none => 1
        | _, _ => 0 := by
  have h1 : (openedChanges old_scan new_scan ip now).countP (isOpenedAt p)
      = new_scan.countP
          (fun e => decide (e.1 = p) && (alookup old_scan e.1).isNone) := by
    rw [openedChanges, countP_filterMap_eq]
    refine List.countP_congr ?_
    intro e _
    by_cases hcond : (alookup old_scan e.1).isNone
    · simp [hcond, isOpenedAt]
    · simp [hcond]
  rw [h1, countP_key_nodup p _ new_scan hnew]
  cases alookup new_scan p with
  | none => rfl
  | some v =>
    cases h2 : alookup old_scan p with
    | none => simp [h2]
    | some w => simp [h2]

/-- Counting closed events at a port: decided by the two lookups. -/
theorem countP_closedChanges (old_scan new_scan : Snapshot)
    (ip now : String) (p : Nat) (hold : (keys old_scan).Nodup) :
    (closedChanges old_scan new_scan ip now).countP (isClosedAt p)
      = match alookup old_scan p, alookup new_scan p with
        | some _, none => 1
        | _, _ => 0 := by
  have h1 : (closedChanges old_scan new_scan ip now).countP (isClosedAt p)
      = old_scan.countP
          (fun e => decide (e.1 = p) && (alookup new_scan e.1).isNone) := by
    rw [closedChanges, countP_filterMap_eq]
    refine List.countP_congr ?_
    intro e _
    by_cases hcond : (alookup new_scan e.1).isNone
    · simp [hcond, isClosedAt]
    · simp [hcond]
  rw [h1, countP_key_nodup p _ old_scan hold]
  cases alookup old_scan p with
  | none => rfl
  | some v =>
    cases h2 : alookup new_scan p with
    | none => simp [h2]
    | some w => simp [h2]

/-- Counting service-change events at a port: decided by the two lookups
and the service labels found there. -/
theorem countP_serviceChanges (old_scan new_scan : Snapshot)
    (ip now : String) (p : Nat) (hnew : (keys new_scan).Nodup) :
    (serviceChanges old_scan new_scan ip now).countP (isServiceChangeAt p)
      = match alookup old_scan p, alookup new_scan p with
        | some oldi, some newi =>
          if newi.service ≠ oldi.service then 1 else 0
        | _, _ => 0 := by
  have h1 : (serviceChanges old_scan new_scan ip now).countP
        (isServiceChangeAt p)
      = new_scan.countP (fun e => decide (e.1 = p) &&
          (match alookup old_scan e.1 with
           | some oldi => decide (e.2.service ≠ oldi.service)
           | none => false)) := by
    rw [serviceChanges, countP_filterMap_eq]
    refine List.countP_congr ?_
    intro e _
    cases hcond : alookup old_scan e.1 with
    | none => simp [hcond]
    | some oldi =>
      by_cases hsvc : e.2.service ≠ oldi.service
      · simp [hcond, hsvc, isServiceChangeAt]
      · simp [hcond, hsvc]
  rw [h1, countP_key_nodup p _ new_scan hnew]
  cases alookup new_scan p with
  | none =>
    cases alookup old_scan p <;> rfl
  | some v =>
    cases h2 : alookup old_scan p with
    | none => simp [h2]
    | some w =>
      by_cases hsvc : v.service ≠ w.service
      · simp [h2, hsvc]
      · simp [h2, hsvc]

/-- Every member of `openedChanges` is an opened event built from an entry
of the new scan whose port is absent from the old scan. -/
theorem openedChanges_shape (old_scan new_scan : Snapshot)
    (ip now : String) (e : Change)
    (h : e ∈ openedChanges old_scan new_scan ip now) :
    ∃ a, a ∈ new_scan ∧ (alookup old_scan a.1).isNone = true ∧
      e = Change.port_opened a.1 a.2.service now
        ("🚨 NEW PORT OPENED on " ++ ip ++ ":" ++ toString a.1 ++ " (" ++
          a.2.service ++ ")") := by
  rw [openedChanges, List.mem_filterMap] at h
  obtain ⟨a, ha, heq⟩ := h
  by_cases hcond : (alookup old_scan a.1).isNone
  · refine ⟨a, ha, hcond, ?_⟩
    simp only [hcond, if_pos] at heq
    exact (Option.some_injective _ heq).symm
  · simp [hcond] at heq

/-- Every member of `closedChanges` is a closed event built from an entry
of the old scan whose port is absent from the new scan. -/
theorem closedChanges_shape (old_scan new_scan : Snapshot)
    (ip now : String) (e : Change)
    (h : e ∈ closedChanges old_scan new_scan ip now) :
    ∃ a, a ∈ old_scan ∧ (alookup new_scan a.1).isNone = true ∧
      e = Change.port_closed a.1 a.2.service now
        ("🚨 PORT CLOSED on " ++ ip ++ ":" ++ toString a.1 ++ " (" ++
          a.2.service ++ ")") := by
  rw [closedChanges, List.mem_filterMap] at h
  obtain ⟨a, ha, heq⟩ := h
  by_cases hcond : (alookup new_scan a.1).isNone
  · refine ⟨a, ha, hcond, ?_⟩
    simp only [hcond, if_pos] at heq
    exact (Option.some_injective _ heq).symm
  · simp [hcond] at heq

/-- Every member of `serviceChanges` is a service-change event built from an
entry of the new scan whose port is present in the old scan with a
different service label. -/
theorem serviceChanges_shape (old_scan new_scan : Snapshot)
    (ip now : String) (e : Change)
    (h : e ∈ serviceChanges old_scan new_scan ip now) :
    ∃ a oldi, a ∈ new_scan ∧ alookup old_scan a.1 = some oldi ∧
      a.2.service ≠ oldi.service ∧
      e = Change.service_change a.1 oldi.service a.2.service now
        ("🔄 SERVICE CHANGE on " ++ ip ++ ":" ++ toString a.1 ++ " (" ++
          oldi.service ++ " → " ++ a.2.service ++ ")") := by
  rw [serviceChanges, List.mem_filterMap] at h
  obtain ⟨a, ha, heq⟩ := h
  cases hcond : alookup old_scan a.1 with
  | none => simp [hcond] at heq
  | some oldi =>
    by_cases hsvc : a.2.service ≠ oldi.service
    · refine ⟨a, oldi, ha, hcond, hsvc, ?_⟩
      rw [hcond] at heq
      dsimp only at heq
      rw [if_pos hsvc] at heq
      exact (Option.some_injective _ heq).symm
    · simp [hcond, hsvc] at heq

end DifferLemmas

section ScannerLemmas

/-- A dictionary insertion makes the inserted key present and keeps every
previously present key present. -/
theorem mem_keys_dictInsert (s : Snapshot) (q : Nat) (v : PortInfo)
    (p : Nat) : p ∈ keys (dictInsert s q v) ↔ p = q ∨ p ∈ keys s := by
  rw [dictInsert]
  by_cases h : (alookup s q).isSome
  · rw [if_pos h]
    have hq : q ∈ keys s := (alookup_isSome_iff s q).mp h
    constructor
    · intro hp
      rw [keys, List.map_map, List.mem_map] at hp
      obtain ⟨e, he, hfe⟩ := hp
      by_cases heq : e.1 = q
      · left
        simpa [heq] using hfe.symm
      · right
        rw [Function.comp_apply, if_neg heq] at hfe
        exact hfe ▸ List.mem_map_of_mem Prod.fst he
    · intro hp
      rw [keys, List.map_map, List.mem_map]
      rcases hp with rfl | hp
      · rw [keys, List.mem_map] at hq
        obtain ⟨e, he, hfe⟩ := hq
        exact ⟨e, he, by simp [hfe]⟩
      · rw [keys, List.mem_map] at hp
        obtain ⟨e, he, hfe⟩ := hp
        refine ⟨e, he, ?_⟩
        by_cases heq : e.1 = q
        · simp [heq, ← hfe]
        · have hpq : ¬p = q := by
            rw [← hfe]
            exact heq
          simp [hpq, hfe]
  · rw [if_neg h]
    simp only [keys, List.map_append, List.mem_append, List.map_cons,
      List.map_nil, List.mem_cons, List.not_mem_nil, or_false]
    tauto

/-- A key present in the accumulator stays present through the scan loop. -/
theorem scan_run_aux_preserves (outcome : Nat → Except String (Bool × String))
    (now : String) (p : Nat) :
    ∀ (l : List Nat) (acc : Snapshot), p ∈ keys acc →
      p ∈ keys (scan_run_aux outcome now l acc) := by
  intro l
  induction l with
  | nil => intro acc h; exact h
  | cons q rest ih =>
    intro acc h
    rw [scan_run_aux]
    cases outcome q with
    | error e => exact ih acc h
    | ok res =>
      dsimp only
      by_cases hopen : res.1 = true
      · rw [if_pos hopen]
        exact ih _ ((mem_keys_dictInsert acc q _ p).mpr (Or.inr h))
      · rw [if_neg hopen]
        exact ih acc h

/-- A port of the scanned list whose probe reports open ends up in the
snapshot, whatever the other probes do. -/
theorem scan_run_aux_covers (outcome : Nat → Except String (Bool × String))
    (now : String) (p : Nat) (b : String)
    (hp : outcome p = .ok (true, b)) :
    ∀ (l : List Nat) (acc : Snapshot), p ∈ l →
      p ∈ keys (scan_run_aux outcome now l acc) := by
  intro l
  induction l with
  | nil => intro acc h; cases h
  | cons q rest ih =>
    intro acc h
    rw [scan_run_aux]
    rcases List.mem_cons.mp h with rfl | hmem
    · rw [hp]
      dsimp only
      rw [if_pos rfl]
      exact scan_run_aux_preserves outcome now p rest _
        ((mem_keys_dictInsert acc p _ p).mpr (Or.inl rfl))
    · cases outcome q with
      | error e => exact ih acc hmem
      | ok res =>
        dsimp only
        by_cases hopen : res.1 = true
        · rw [if_pos hopen]
          exact ih _ hmem
        · rw [if_neg hopen]
          exact ih acc hmem

end ScannerLemmas

section OrderLemmas

/-- A list all of whose elements are one constant is pairwise
non-decreasing. -/
theorem pairwise_le_of_const (c : Nat) :
    ∀ l : List Nat, (∀ x ∈ l, x = c) → l.Pairwise (· ≤ ·) := by
  intro l
  induction l with
  | nil => intro _; exact List.Pairwise.nil
  | cons a t ih =>
    intro h
    refine List.Pairwise.cons ?_ (ih fun x hx => h x (List.mem_cons_of_mem a hx))
    intro b hb
    rw [h a (List.mem_cons_self a t), h b (List.mem_cons_of_mem a hb)]

/-- The kind rank of every opened event is 0. -/
theorem kindRank_openedChanges (old_scan new_scan : Snapshot)
    (ip now : String) (e : Change)
    (h : e ∈ openedChanges old_scan new_scan ip now) : kindRank e = 0 := by
  obtain ⟨a, -, -, rfl⟩ := openedChanges_shape old_scan new_scan ip now e h
  rfl

/-- The kind rank of every closed event is 1. -/
theorem kindRank_closedChanges (old_scan new_scan : Snapshot)
    (ip now : String) (e : Change)
    (h : e ∈ closedChanges old_scan new_scan ip now) : kindRank e = 1 := by
  obtain ⟨a, -, -, rfl⟩ := closedChanges_shape old_scan new_scan ip now e h
  rfl

/-- The kind rank of every service-change event is 2. -/
theorem kindRank_serviceChanges (old_scan new_scan : Snapshot)
    (ip now : String) (e : Change)
    (h : e ∈ serviceChanges old_scan new_scan ip now) : kindRank e = 2 := by
  obtain ⟨a, oldi, -, -, -, rfl⟩ :=
    serviceChanges_shape old_scan new_scan ip now e h
  rfl

end OrderLemmas

section Claims

/-- Claim C2, counterexample: classifying port 443 with the banner
`"ssh"` returns `"ssh"`, not `"https"` — banner content can override the
`"https"` label at port 443. -/
theorem claim_C2_counterexample :
    get_service_name 443 "ssh" = "ssh" ∧ get_service_name 443 "ssh" ≠ "https" := by
  constructor
  · decide
  · decide

/-- Claim C2, amended: the `http` keyword rule maps to `"https"` when the
port is 443, and `classify(443, banner)` returns `"https"` for every
banner containing none of the keywords `ssh`, `smtp`, `ftp`, `mysql`
(case-insensitively); banners matching one of those rules yield that
label of that rule instead. -/
theorem claim_C2 (banner : String)
    (hssh : strContains (strLower banner) "ssh" = false)
    (hsmtp : strContains (strLower banner) "smtp" = false)
    (hftp : strContains (strLower banner) "ftp" = false)
    (hmysql : strContains (strLower banner) "mysql" = false) :
    get_service_name 443 banner = "https" := by
  have hbase : (alookup COMMON_SERVICES 443).getD "unknown" = "https" := by
    decide
  rw [get_service_name]
  by_cases hb : banner = ""
  · simp [hb, hbase]
  · by_cases hh : strContains (strLower banner) "http" = true
    · simp [hb, hssh, hh]
    · simp [hb, hssh, hsmtp, hftp, hmysql, hh, hbase]

/-- Claim C2, witness for the amended theorem at a concrete banner. -/
theorem claim_C2_witness : get_service_name 443 "welcome banner" = "https" :=
  claim_C2 "welcome banner" (by decide) (by decide) (by decide) (by decide)

set_option maxRecDepth 20000 in
/-- Claim C3, counterexample: the default port sequence is not
deduplicated — port 22 occurs in both the service table and the range
1–1000, hence twice in the sequence, and each entry is probed. -/
theorem claim_C3_counterexample : (scan_ports_portList none).count 22 = 2 := by
  decide

/-- Claim C3, amended: when `scan_ports` is invoked without an explicit
port set, the set of ports probed equals the union of the well-known
service ports table and ports 1 through 1000; the port sequence is the
concatenation of the two, without deduplication. -/
theorem claim_C3 (p : Nat) :
    p ∈ scan_ports_portList none
      ↔ p ∈ keys COMMON_SERVICES ∨ (1 ≤ p ∧ p ≤ 1000) := by
  rw [scan_ports_portList]
  have h1001 : p < 1 + 1000 ↔ p ≤ 1000 := by omega
  simp [List.mem_append, List.mem_range'_1, h1001]

/-- Claim C3, witness: the amended theorem applied at port 22. -/
theorem claim_C3_witness : 22 ∈ scan_ports_portList none :=
  (claim_C3 22).mpr (Or.inr (by decide))

/-- Claim C5: diffing any snapshot (with duplicate-free
keys, the dictionary invariant) against itself produces no change events. -/
theorem claim_C5 (S : Snapshot) (ip now : String) (h : (keys S).Nodup) :
    detect_changes S S ip now = [] := by
  have hopened : openedChanges S S ip now = [] := by
    rw [openedChanges, List.filterMap_eq_nil_iff]
    intro a ha
    have hs : (alookup S a.1).isSome = true :=
      (alookup_isSome_iff S a.1).mpr (List.mem_map_of_mem Prod.fst ha)
    obtain ⟨v, hv⟩ := Option.isSome_iff_exists.mp hs
    simp [hv]
  have hclosed : closedChanges S S ip now = [] := by
    rw [closedChanges, List.filterMap_eq_nil_iff]
    intro a ha
    have hs : (alookup S a.1).isSome = true :=
      (alookup_isSome_iff S a.1).mpr (List.mem_map_of_mem Prod.fst ha)
    obtain ⟨v, hv⟩ := Option.isSome_iff_exists.mp hs
    simp [hv]
  have hsvc : serviceChanges S S ip now = [] := by
    rw [serviceChanges, List.filterMap_eq_nil_iff]
    intro a ha
    rw [alookup_of_mem_nodup S h a ha]
    simp
  rw [detect_changes, hopened, hclosed, hsvc]
  rfl

/-- Claim C5, witness: the no-op diff at a concrete snapshot. -/
theorem claim_C5_witness :
    detect_changes [(22, ⟨"ssh", "SSH-2.0", "t1"⟩)]
      [(22, ⟨"ssh", "SSH-2.0", "t1"⟩)] "10.0.0.5" "t2" = [] :=
  claim_C5 [(22, ⟨"ssh", "SSH-2.0", "t1"⟩)] "10.0.0.5" "t2" (by decide)

/-- Claim C6: calling `start_monitoring` on an identifier that is already
monitored returns `AlreadyMonitored` and leaves the whole monitored-target
map — the last snapshot, change log and start time of every target
included —
exactly as it was. -/
theorem claim_C6 (monitored_ips : List (String × TargetInfo)) (ip : String)
    (pingOk : Bool) (scanResult : Snapshot) (now : String)
    (h : (alookup monitored_ips ip).isSome = true) :
    start_monitoring monitored_ips ip pingOk scanResult now
      = (monitored_ips, AddResult.alreadyMonitored) := by
  rw [start_monitoring, if_pos h]

/-- Claim C6, witness: re-adding a concretely monitored ip changes
nothing. -/
theorem claim_C6_witness :
    start_monitoring [("10.0.0.5", ⟨[(22, ⟨"ssh", "", "t0"⟩)], [], "t0"⟩)]
        "10.0.0.5" true [(80, ⟨"http", "", "t3"⟩)] "t3"
      = ([("10.0.0.5", ⟨[(22, ⟨"ssh", "", "t0"⟩)], [], "t0"⟩)],
         AddResult.alreadyMonitored) :=
  claim_C6 [("10.0.0.5", ⟨[(22, ⟨"ssh", "", "t0"⟩)], [], "t0"⟩)]
    "10.0.0.5" true [(80, ⟨"http", "", "t3"⟩)] "t3" (by decide)

/-- Claim C8: the classifier is total and never returns the empty label;
with an empty banner it returns the label the static table has for the
port, and
for a port absent from the table (still with an empty banner) it returns
`"unknown"`. -/
theorem claim_C8 (port : Nat) (banner : String) :
    get_service_name port banner ≠ ""
    ∧ get_service_name port ""
        = (alookup COMMON_SERVICES port).getD "unknown"
    ∧ (alookup COMMON_SERVICES port = none →
        get_service_name port "" = "unknown") := by
  have hbase : (alookup COMMON_SERVICES port).getD "unknown" ≠ "" := by
    cases hx : alookup COMMON_SERVICES port with
    | none => decide
    | some v =>
      have hall : ∀ e ∈ COMMON_SERVICES, e.2 ≠ "" := by decide
      simpa using hall (port, v) (alookup_mem _ _ _ hx)
  refine ⟨?_, ?_, ?_⟩
  · rw [get_service_name]
    by_cases hb : banner = ""
    · simpa [hb] using hbase
    · simp only [if_neg hb]
      split_ifs <;> first | decide | simpa using hbase
  · simp [get_service_name]
  · intro hnone
    simp [get_service_name, hnone]

/-- Claim C8, witness: the classifier at a port absent from the table with
an empty banner. -/
theorem claim_C8_witness : get_service_name 12345 "" = "unknown" :=
  (claim_C8 12345 "").2.2 (by decide)

/-- Claim C9: the classifier refines the base label through the fixed
ordered, case-insensitive keyword rules (ssh, http, smtp, ftp, mysql),
first match winning: it coincides with the rule-list classifier modelled
from the spec. -/
theorem claim_C9 (port : Nat) (banner : String) :
    get_service_name port banner = classify_spec port banner := by
  rw [get_service_name, classify_spec, keywordRules]
  by_cases hb : banner = ""
  · simp [hb]
  · simp only [if_neg hb, firstMatch]
    split_ifs <;> simp

/-- Claim C1, counterexample: a cycle whose diff is empty (same port, same
service, different banner) does not replace `last_scan` — the stale
snapshot is kept, contradicting the claimed unconditional replacement. -/
theorem claim_C1_counterexample :
    detect_changes [(80, ⟨"http", "Server-A", "t1"⟩)]
        [(80, ⟨"http", "Server-B", "t2"⟩)] "10.0.0.5" "t3" = []
    ∧ (monitor_cycle ⟨[(80, ⟨"http", "Server-A", "t1"⟩)], [], "t0"⟩
          [(80, ⟨"http", "Server-B", "t2"⟩)] "10.0.0.5" "t3").last_scan
        ≠ [(80, ⟨"http", "Server-B", "t2"⟩)] := by
  constructor
  · decide
  · decide

/-- Claim C1, amended: in a monitoring cycle the field `last_scan` of the target is
replaced with the new snapshot (and the change log extended) exactly when
the diff produced at least one change event; with zero change events the
target record is left entirely unchanged, stale snapshot included. -/
theorem claim_C1 (st : TargetInfo) (current_scan : Snapshot)
    (ip now : String) :
    (detect_changes st.last_scan current_scan ip now = [] →
      monitor_cycle st current_scan ip now = st)
    ∧ (detect_changes st.last_scan current_scan ip now ≠ [] →
      monitor_cycle st current_scan ip now
        = ⟨current_scan,
           st.changes ++ detect_changes st.last_scan current_scan ip now,
           st.start_time⟩) := by
  constructor
  · intro h
    rw [monitor_cycle]
    simp [h]
  · intro h
    rw [monitor_cycle]
    simp [h]

/-- Claim C1, witness for the amended theorem: a no-change cycle at a
concrete state. -/
theorem claim_C1_witness :
    monitor_cycle ⟨[], [], "t0"⟩ [] "10.0.0.5" "t1" = ⟨[], [], "t0"⟩ :=
  (claim_C1 ⟨[], [], "t0"⟩ [] "10.0.0.5" "t1").1 (by decide)

/-- Claim C4: for snapshots with duplicate-free keys (the dictionary
invariant), the
diff emits exactly one opened event per port in new-but-not-old, exactly
one closed event per port in old-but-not-new, exactly one service-change
event per shared port with differing service labels, and no event at all
for a shared port with an unchanged label (banner differences included). -/
theorem claim_C4 (old_scan new_scan : Snapshot) (ip now : String)
    (hold : (keys old_scan).Nodup) (hnew : (keys new_scan).Nodup)
    (p : Nat) :
    ((detect_changes old_scan new_scan ip now).countP (isOpenedAt p)
      = match alookup new_scan p, alookup old_scan p with
        | some _, none => 1
        | _, _ => 0)
    ∧ ((detect_changes old_scan new_scan ip now).countP (isClosedAt p)
      = match alookup old_scan p, alookup new_scan p with
        | some _, none => 1
        | _, _ => 0)
    ∧ ((detect_changes old_scan new_scan ip now).countP (isServiceChangeAt p)
      = match alookup old_scan p, alookup new_scan p with
        | some oldi, some newi =>
          if newi.service ≠ oldi.service then 1 else 0
        | _, _ => 0)
    ∧ (∀ oldi newi, alookup old_scan p = some oldi →
        alookup new_scan p = some newi → oldi.service = newi.service →
        (detect_changes old_scan new_scan ip now).countP
          (fun e => decide (e.port = p)) = 0) := by
  have hBo : (closedChanges old_scan new_scan ip now).countP (isOpenedAt p)
      = 0 := by
    rw [List.countP_eq_zero]
    intro e he
    obtain ⟨a, -, -, rfl⟩ := closedChanges_shape _ _ _ _ e he
    simp [isOpenedAt]
  have hCo : (serviceChanges old_scan new_scan ip now).countP (isOpenedAt p)
      = 0 := by
    rw [List.countP_eq_zero]
    intro e he
    obtain ⟨a, oldi, -, -, -, rfl⟩ := serviceChanges_shape _ _ _ _ e he
    simp [isOpenedAt]
  have hAc : (openedChanges old_scan new_scan ip now).countP (isClosedAt p)
      = 0 := by
    rw [List.countP_eq_zero]
    intro e he
    obtain ⟨a, -, -, rfl⟩ := openedChanges_shape _ _ _ _ e he
    simp [isClosedAt]
  have hCc : (serviceChanges old_scan new_scan ip now).countP (isClosedAt p)
      = 0 := by
    rw [List.countP_eq_zero]
    intro e he
    obtain ⟨a, oldi, -, -, -, rfl⟩ := serviceChanges_shape _ _ _ _ e he
    simp [isClosedAt]
  have hAs : (openedChanges old_scan new_scan ip now).countP
      (isServiceChangeAt p) = 0 := by
    rw [List.countP_eq_zero]
    intro e he
    obtain ⟨a, -, -, rfl⟩ := openedChanges_shape _ _ _ _ e he
    simp [isServiceChangeAt]
  have hBs : (closedChanges old_scan new_scan ip now).countP
      (isServiceChangeAt p) = 0 := by
    rw [List.countP_eq_zero]
    intro e he
    obtain ⟨a, -, -, rfl⟩ := closedChanges_shape _ _ _ _ e he
    simp [isServiceChangeAt]
  refine ⟨?_, ?_, ?_, ?_⟩
  · rw [detect_changes, List.countP_append, List.countP_append,
      countP_openedChanges old_scan new_scan ip now p hnew, hBo, hCo]
    simp
  · rw [detect_changes, List.countP_append, List.countP_append,
      countP_closedChanges old_scan new_scan ip now p hold, hAc, hCc]
    simp
  · rw [detect_changes, List.countP_append, List.countP_append,
      countP_serviceChanges old_scan new_scan ip now p hnew, hAs, hBs]
    simp
  · intro oldi newi holdp hnewp hsvc
    rw [List.countP_eq_zero]
    intro e he
    intro hdec
    have hport : e.port = p := of_decide_eq_true hdec
    rw [detect_changes] at he
    rcases List.mem_append.mp he with hab | hc
    · rcases List.mem_append.mp hab with ha | hb
      · obtain ⟨a, -, hnone, rfl⟩ := openedChanges_shape _ _ _ _ e ha
        rw [Change.port] at hport
        rw [hport, holdp] at hnone
        cases hnone
      · obtain ⟨a, -, hnone, rfl⟩ := closedChanges_shape _ _ _ _ e hb
        rw [Change.port] at hport
        rw [hport, hnewp] at hnone
        cases hnone
    · obtain ⟨a, oldi2, hmem, hlook, hne, rfl⟩ :=
        serviceChanges_shape _ _ _ _ e hc
      rw [Change.port] at hport
      rw [hport] at hlook
      rw [holdp] at hlook
      have hlook2 : alookup new_scan a.1 = some a.2 :=
        alookup_of_mem_nodup new_scan hnew a hmem
      rw [hport, hnewp] at hlook2
      apply hne
      have h1 : oldi = oldi2 := Option.some_injective _ hlook
      have h2 : newi = a.2 := Option.some_injective _ hlook2
      rw [← h1, ← h2]
      exact hsvc.symm

/-- Claim C4, witness: the diff of two concrete snapshots has exactly one
opened event at port 443. -/
theorem claim_C4_witness :
    (detect_changes [(80, ⟨"http", "", "t1"⟩)]
        [(80, ⟨"http", "", "t2"⟩), (443, ⟨"https", "", "t2"⟩)]
        "10.0.0.5" "t3").countP (isOpenedAt 443) = 1 :=
  (claim_C4 [(80, ⟨"http", "", "t1"⟩)]
    [(80, ⟨"http", "", "t2"⟩), (443, ⟨"https", "", "t2"⟩)]
    "10.0.0.5" "t3" (by decide) (by decide) 443).1

/-- Claim C7: a probe never propagates a failure — a raising connect or a
non-zero connect code yields `(open := false, banner empty)` — and a
failing probe does not abort the scan: every other port whose probe
reports open still appears in the returned snapshot. -/
theorem claim_C7 :
    (∀ (err : String) (bannerRes : Except String String),
        scan_port (.error err) bannerRes = (false, ""))
    ∧ (∀ (code : Nat) (bannerRes : Except String String), code ≠ 0 →
        scan_port (.ok code) bannerRes = (false, ""))
    ∧ (∀ (ports : List Nat)
        (outcome : Nat → Except String (Bool × String))
        (now : String) (p : Nat) (b : String), p ∈ ports →
        outcome p = .ok (true, b) →
        (alookup (scan_ports outcome now (some ports)) p).isSome = true) := by
  refine ⟨?_, ?_, ?_⟩
  · intro err bannerRes
    rfl
  · intro code bannerRes h
    rw [scan_port.eq_def]
    dsimp only
    rw [if_neg h]
  · intro ports outcome now p b hmem houtcome
    rw [alookup_isSome_iff]
    exact scan_run_aux_covers outcome now p b houtcome ports [] hmem

/-- Claim C7, witness: a concrete scan where every probe but one raises
still reports the open port. -/
theorem claim_C7_witness :
    scan_port (.error "unreachable") (.ok "x") = (false, "")
    ∧ scan_port (.ok 111) (.error "reset") = (false, "")
    ∧ (alookup (scan_ports
        (fun q => if q = 22 then .ok (true, "SSH-2.0") else .error "timeout")
        "t1" (some [80, 22, 443])) 22).isSome = true :=
  ⟨claim_C7.1 "unreachable" (.ok "x"),
   claim_C7.2.1 111 (.error "reset") (by decide),
   claim_C7.2.2 [80, 22, 443]
     (fun q => if q = 22 then .ok (true, "SSH-2.0") else .error "timeout")
     "t1" 22 "SSH-2.0" (by decide) (by rfl)⟩

/-- Claim C10: the diff output is grouped by event kind in the fixed order
opened, closed, service-changed — the kind ranks along the emitted list
never decrease. -/
theorem claim_C10 (old_scan new_scan : Snapshot) (ip now : String) :
    ((detect_changes old_scan new_scan ip now).map kindRank).Pairwise
      (· ≤ ·) := by
  rw [detect_changes, List.map_append, List.map_append,
    List.pairwise_append]
  refine ⟨?_, ?_, ?_⟩
  · rw [List.pairwise_append]
    refine ⟨?_, ?_, ?_⟩
    · apply pairwise_le_of_const 0
      intro x hx
      obtain ⟨e, he, rfl⟩ := List.mem_map.mp hx
      exact kindRank_openedChanges _ _ _ _ e he
    · apply pairwise_le_of_const 1
      intro x hx
      obtain ⟨e, he, rfl⟩ := List.mem_map.mp hx
      exact kindRank_closedChanges _ _ _ _ e he
    · intro a ha b hb
      obtain ⟨e, he, rfl⟩ := List.mem_map.mp ha
      rw [kindRank_openedChanges _ _ _ _ e he]
      exact Nat.zero_le _
  · apply pairwise_le_of_const 2
    intro x hx
    obtain ⟨e, he, rfl⟩ := List.mem_map.mp hx
    exact kindRank_serviceChanges _ _ _ _ e he
  · intro a ha b hb
    obtain ⟨f, hf, rfl⟩ := List.mem_map.mp hb
    rw [kindRank_serviceChanges _ _ _ _ f hf]
    rcases List.mem_append.mp ha with h1 | h2
    · obtain ⟨e, he, rfl⟩ := List.mem_map.mp h1
      rw [kindRank_openedChanges _ _ _ _ e he]
      exact Nat.zero_le 2
    · obtain ⟨e, he, rfl⟩ := List.mem_map.mp h2
      rw [kindRank_closedChanges _ _ _ _ e he]
      exact Nat.le_succ 1

end Claims

end ACD
